import Mathlib

/-!
Verification of the Open WebUI analytics dashboard's ranking-presentation layer:
rating derivation, client-side table sorting (JS stable `Array.prototype.sort`
with a numeric-subtraction comparator), sort-state handling, the pagination
controller, presentation widgets, and the bootstrap fetch orchestration.

Numeric row fields (JS numbers holding non-negative counts) are modelled as `Int`
so that the derived rating's subtraction is exact integer subtraction; pagination
inputs (`total`, `offset`, `limit`) are modelled as `Nat` with `Math.floor` /
`Math.ceil` over real division embedded as `Nat.floor` / `Nat.ceil` of rational
division, and `Math.max(0, offset - limit)` computed over `Int`.
-/

namespace OWD

/-- Row of the developer ranking table (`DeveloperRanking` in `lib/api`):
`{ user_id, email, workspace_count, total_users, total_chats, total_messages,
total_positive, total_negative }`. -/
structure DeveloperRanking where
  user_id : String
  email : String
  workspace_count : Int
  total_users : Int
  total_chats : Int
  total_messages : Int
  total_positive : Int
  total_negative : Int
deriving DecidableEq, Repr

/-- Row of the workspace ranking table (`WorkspaceRanking` in `lib/api`):
`{ id, name, developer_email, user_count, chat_count, message_count, positive,
negative }`. -/
structure WorkspaceRanking where
  id : String
  name : String
  developer_email : String
  user_count : Int
  chat_count : Int
  message_count : Int
  positive : Int
  negative : Int
deriving DecidableEq, Repr

/-- Row of the group ranking table (`GroupRanking` in `lib/api`):
`{ group_id, group_name, member_count, total_feedbacks, chats_per_member,
messages_per_member }`.  The per-member fields arrive pre-computed from the
source; like the other JS numeric fields they are modelled as integers. -/
structure GroupRanking where
  group_id : String
  group_name : String
  member_count : Int
  total_feedbacks : Int
  chats_per_member : Int
  messages_per_member : Int
deriving DecidableEq, Repr

/-- Sort direction, `type SortDir = "asc" | "desc"`. -/
inductive SortDir where
  | asc
  | desc
deriving DecidableEq, Repr

/-- The comparator value returned by the sort callback in every ranking table:
`return sortDir === "desc" ? vb - va : va - vb;`. -/
def cmpVal (dir : SortDir) (va vb : Int) : Int :=
  match dir with
  | SortDir.desc => vb - va
  | SortDir.asc => va - vb

/-- The ordering relation induced by the JS comparator: element `a` may precede
`b` in the sorted output exactly when the comparator is non-positive. -/
def jsSortLE {α : Type} (kv : α → Int) (dir : SortDir) (a b : α) : Prop :=
  cmpVal dir (kv a) (kv b) ≤ 0

instance {α : Type} (kv : α → Int) (dir : SortDir) : DecidableRel (jsSortLE kv dir) :=
  fun _ _ => Int.decLe _ _

/-- Embedding of `[...data].sort((a, b) => comparator)`: JS `Array.prototype.sort` is required
to be a stable sort, so it is embedded as insertion sort (which is stable) over
the relation `comparator a b ≤ 0`; the input array is copied, not mutated. -/
def jsSortBy {α : Type} (kv : α → Int) (dir : SortDir) (data : List α) : List α :=
  List.insertionSort (jsSortLE kv dir) data

/-- The per-table sort state: `useState<SortKey>` paired with
`useState<"asc" | "desc">`. -/
structure SortState (K : Type) where
  sortKey : K
  sortDir : SortDir
deriving DecidableEq, Repr

/-- Click handler `handleSort`, identical in every ranking table:
`if (sortKey === key) setSortDir(sortDir === "desc" ? "asc" : "desc");
else { setSortKey(key); setSortDir("desc"); }`. -/
def handleSort {K : Type} [DecidableEq K] (key : K) (s : SortState K) : SortState K :=
  if s.sortKey = key then
    { s with sortDir := if s.sortDir = SortDir.desc then SortDir.asc else SortDir.desc }
  else
    { sortKey := key, sortDir := SortDir.desc }

/-- Embedding of `email.split("@")[0]`: the characters of the string strictly before the
first `"@"` (the whole string when no `"@"` occurs, the empty string for the
empty string). -/
def splitAtSign (s : String) : String :=
  String.mk (s.data.takeWhile (fun c => c ≠ '@'))

namespace DevTable

/-- Sort keys `type SortKey` of `DeveloperRankingTable`. -/
inductive SortKey where
  | workspace_count
  | total_users
  | total_chats
  | total_messages
  | rating
deriving DecidableEq, Repr

/-- Source `function getRating(row) { return row.total_positive - row.total_negative; }` -/
def getRating (row : DeveloperRanking) : Int :=
  row.total_positive - row.total_negative

/-- The value the sort comparator reads for a key:
`sortKey === "rating" ? getRating(a) : a[sortKey]`. -/
def keyVal (key : SortKey) (row : DeveloperRanking) : Int :=
  match key with
  | SortKey.workspace_count => row.workspace_count
  | SortKey.total_users => row.total_users
  | SortKey.total_chats => row.total_chats
  | SortKey.total_messages => row.total_messages
  | SortKey.rating => getRating row

/-- Local helper of `DeveloperRankingTable`,
`function emailPrefix(email) { return email.split("@")[0]; }` — note: unlike the
shared `lib/table-utils` version, it has no empty-string guard. -/
def emailPrefix (email : String) : String :=
  splitAtSign email

/-- Sorted page `const sorted = [...data].sort((a, b) => ...)` of `DeveloperRankingTable`. -/
def sorted (s : SortState SortKey) (data : List DeveloperRanking) : List DeveloperRanking :=
  jsSortBy (keyVal s.sortKey) s.sortDir data

end DevTable

namespace WsTable

/-- Sort keys `type SortKey` of `WorkspaceRankingTable`. -/
inductive SortKey where
  | user_count
  | chat_count
  | message_count
  | rating
deriving DecidableEq, Repr

/-- Source `function getRating(row) { return row.positive - row.negative; }` -/
def getRating (row : WorkspaceRanking) : Int :=
  row.positive - row.negative

/-- Comparator input `sortKey === "rating" ? getRating(a) : a[sortKey]` for workspace rows. -/
def keyVal (key : SortKey) (row : WorkspaceRanking) : Int :=
  match key with
  | SortKey.user_count => row.user_count
  | SortKey.chat_count => row.chat_count
  | SortKey.message_count => row.message_count
  | SortKey.rating => getRating row

/-- Sorted page `const sorted = [...data].sort((a, b) => ...)` of `WorkspaceRankingTable`. -/
def sorted (s : SortState SortKey) (data : List WorkspaceRanking) : List WorkspaceRanking :=
  jsSortBy (keyVal s.sortKey) s.sortDir data

end WsTable

namespace GrpTable

/-- Sort keys `type SortKey` of `GroupRankingTable`. -/
inductive SortKey where
  | member_count
  | total_feedbacks
  | chats_per_member
  | messages_per_member
deriving DecidableEq, Repr

/-- Comparator input `const va = a[sortKey]` — the group table has no derived key. -/
def keyVal (key : SortKey) (row : GroupRanking) : Int :=
  match key with
  | SortKey.member_count => row.member_count
  | SortKey.total_feedbacks => row.total_feedbacks
  | SortKey.chats_per_member => row.chats_per_member
  | SortKey.messages_per_member => row.messages_per_member

/-- Sorted page `const sorted = [...data].sort((a, b) => ...)` of `GroupRankingTable`. -/
def sorted (s : SortState SortKey) (data : List GroupRanking) : List GroupRanking :=
  jsSortBy (keyVal s.sortKey) s.sortDir data

end GrpTable

namespace TableUtils

/-- Shared widget of `lib/table-utils`:
`function emailPrefix(email) { if (!email) return "-"; return email.split("@")[0]; }`
(the empty string is the only falsy value of type `string`). -/
def emailPrefix (email : String) : String :=
  if email = "" then "-" else splitAtSign email

end TableUtils

namespace Pagination

/-- Source `const currentPage = Math.floor(offset / limit) + 1;` -/
def currentPage (offset limit : ℕ) : ℕ :=
  ⌊(offset : ℚ) / (limit : ℚ)⌋₊ + 1

/-- Source `const totalPages = Math.ceil(total / limit);` -/
def totalPages (total limit : ℕ) : ℕ :=
  ⌈(total : ℚ) / (limit : ℚ)⌉₊

/-- Source `const from = offset + 1;` (the field `from` is a Lean keyword, hence `rangeFrom`). -/
def rangeFrom (offset : ℕ) : ℕ :=
  offset + 1

/-- Source `const to = Math.min(offset + limit, total);` -/
def rangeTo (total offset limit : ℕ) : ℕ :=
  min (offset + limit) total

/-- Condition `disabled` on the "Prev" button: `offset === 0`. -/
def prevDisabled (offset : ℕ) : Bool :=
  decide (offset = 0)

/-- Click target of the "Prev" button, `onPageChange(Math.max(0, offset - limit))`: the offset the
"Prev" button emits, computed over the integers then clamped at zero. -/
def prevTarget (offset limit : ℕ) : ℕ :=
  (max 0 ((offset : ℤ) - (limit : ℤ))).toNat

/-- Condition `disabled` on the "Next" button: `offset + limit >= total`. -/
def nextDisabled (total offset limit : ℕ) : Bool :=
  decide (total ≤ offset + limit)

/-- Click target of the "Next" button, `onPageChange(offset + limit)`: the offset the "Next" button
emits. -/
def nextTarget (offset limit : ℕ) : ℕ :=
  offset + limit

/-- What the pagination control displays: `Showing {from}–{to} of {total}` and
`{currentPage} / {totalPages}`. -/
structure View where
  currentPage : ℕ
  totalPages : ℕ
  rangeFrom : ℕ
  rangeTo : ℕ
deriving DecidableEq, Repr

/-- The four displayed quantities computed by the `Pagination` component. -/
def view (total offset limit : ℕ) : View :=
  { currentPage := currentPage offset limit
    totalPages := totalPages total limit
    rangeFrom := rangeFrom offset
    rangeTo := rangeTo total offset limit }

/-- Render guard `if (total <= limit) return null;` — the component renders nothing when the
whole result set fits in one page, otherwise it renders the view. -/
def render (total offset limit : ℕ) : Option View :=
  if total ≤ limit then none else some (view total offset limit)

end Pagination

/-- Dashboard orchestrator state: `loading`, `error(message)`, or ready. -/
inductive DashState where
  | loading
  | ready
  | error (msg : String)
deriving DecidableEq, Repr

/-- JS `Promise.all` over the settled outcomes of the bootstrap fetches: it
fulfills with all values when every promise fulfilled, and rejects with a
rejection reason as soon as any promise rejected. -/
def promiseAll {ε α : Type} : List (Except ε α) → Except ε (List α)
  | [] => Except.ok []
  | Except.error e :: _ => Except.error e
  | Except.ok a :: rest =>
    match promiseAll rest with
    | Except.ok as => Except.ok (a :: as)
    | Except.error e => Except.error e

/-- Final dashboard state once every initial fetch has settled:
`Promise.all([...]).catch((err) => setError(...)).finally(() => setLoading(false))`
clears `loading` and sets `error` exactly when the joint promise rejected, and
the render function shows the error branch whenever `error` is set, the ready
branch otherwise. -/
def bootstrapFinalState (results : List (Except String Unit)) : DashState :=
  match promiseAll results with
  | Except.error e => DashState.error e
  | Except.ok _ => DashState.ready



/-! ## Generic facts about the JS stable sort embedding -/

theorem jsSortLE_total {α : Type} (kv : α → Int) (dir : SortDir) (a b : α) :
    jsSortLE kv dir a b ∨ jsSortLE kv dir b a := by
  cases dir <;> simp only [jsSortLE, cmpVal] <;> omega

theorem jsSortLE_trans {α : Type} (kv : α → Int) (dir : SortDir) (a b c : α)
    (hab : jsSortLE kv dir a b) (hbc : jsSortLE kv dir b c) : jsSortLE kv dir a c := by
  cases dir <;> simp only [jsSortLE, cmpVal] at hab hbc ⊢ <;> omega

theorem jsSortBy_sorted {α : Type} (kv : α → Int) (dir : SortDir) (data : List α) :
    (jsSortBy kv dir data).Sorted (jsSortLE kv dir) := by
  haveI : IsTotal α (jsSortLE kv dir) := ⟨jsSortLE_total kv dir⟩
  haveI : IsTrans α (jsSortLE kv dir) := ⟨jsSortLE_trans kv dir⟩
  exact List.sorted_insertionSort _ data

theorem jsSortBy_sorted_desc {α : Type} (kv : α → Int) (data : List α) :
    (jsSortBy kv SortDir.desc data).Sorted (fun a b => kv b ≤ kv a) :=
  List.Pairwise.imp (fun hab => sub_nonpos.mp hab) (jsSortBy_sorted kv SortDir.desc data)

theorem jsSortBy_sorted_asc {α : Type} (kv : α → Int) (data : List α) :
    (jsSortBy kv SortDir.asc data).Sorted (fun a b => kv a ≤ kv b) :=
  List.Pairwise.imp (fun hab => sub_nonpos.mp hab) (jsSortBy_sorted kv SortDir.asc data)

theorem filter_orderedInsert_pos {α : Type} (r : α → α → Prop) [DecidableRel r]
    (p : α → Bool) (x : α) (l : List α) (hx : p x = true)
    (h : ∀ y, p y = true → r x y) :
    (List.orderedInsert r x l).filter p = x :: l.filter p := by
  induction l with
  | nil => simp [List.orderedInsert, hx]
  | cons y ys ih =>
    by_cases hr : r x y
    · simp [List.orderedInsert, hr, List.filter_cons, hx]
    · have hy : p y = false := by
        cases hpy : p y
        · rfl
        · exact absurd (h y hpy) hr
      simp [List.orderedInsert, hr, List.filter_cons, hy, ih]

theorem filter_orderedInsert_neg {α : Type} (r : α → α → Prop) [DecidableRel r]
    (p : α → Bool) (x : α) (l : List α) (hx : p x = false) :
    (List.orderedInsert r x l).filter p = l.filter p := by
  induction l with
  | nil => simp [List.orderedInsert, hx]
  | cons y ys ih =>
    by_cases hr : r x y
    · simp [List.orderedInsert, hr, List.filter_cons, hx]
    · simp [List.orderedInsert, hr, List.filter_cons, ih]

theorem filter_insertionSort {α : Type} (r : α → α → Prop) [DecidableRel r]
    (p : α → Bool) (hp : ∀ a b, p a = true → p b = true → r a b) (l : List α) :
    (List.insertionSort r l).filter p = l.filter p := by
  induction l with
  | nil => rfl
  | cons a l ih =>
    show (List.orderedInsert r a (List.insertionSort r l)).filter p = _
    cases hpa : p a
    · rw [filter_orderedInsert_neg r p a _ hpa, ih]
      simp [List.filter_cons, hpa]
    · rw [filter_orderedInsert_pos r p a _ hpa (fun y hy => hp a y hpa hy), ih]
      simp [List.filter_cons, hpa]

theorem jsSortBy_stable {α : Type} (kv : α → Int) (dir : SortDir) (data : List α) (v : Int) :
    (jsSortBy kv dir data).filter (fun x => decide (kv x = v)) =
      data.filter (fun x => decide (kv x = v)) := by
  refine filter_insertionSort _ _ (fun a b ha hb => ?_) data
  have ha' : kv a = v := of_decide_eq_true ha
  have hb' : kv b = v := of_decide_eq_true hb
  show cmpVal dir (kv a) (kv b) ≤ 0
  rw [ha', hb']
  cases dir <;> simp [cmpVal]

theorem jsSortBy_perm {α : Type} (kv : α → Int) (dir : SortDir) (data : List α) :
    (jsSortBy kv dir data).Perm data :=
  List.perm_insertionSort _ data

/-! ## The claims -/

/-- C1: for every ranking row, the derived rating is exactly the positive
feedback count minus the negative feedback count, as integer subtraction —
`total_positive − total_negative` for developer rows, `positive − negative`
for workspace rows — and the result is negative exactly when the negative
count exceeds the positive count (no clamping at zero). -/
theorem claim_C1_rating_is_exact_subtraction (d : DeveloperRanking) (w : WorkspaceRanking) :
    DevTable.getRating d = d.total_positive - d.total_negative
    ∧ WsTable.getRating w = w.positive - w.negative
    ∧ (DevTable.getRating d < 0 ↔ d.total_positive < d.total_negative)
    ∧ (WsTable.getRating w < 0 ↔ w.positive < w.negative) := by
  refine ⟨rfl, rfl, ?_, ?_⟩ <;> simp only [DevTable.getRating, WsTable.getRating] <;> omega

/-- C2: for every input page, every sort key of the table's enumerated key set
and every direction, the sorted page is ordered numerically on that key (on the
derived rating when the key is `rating`, via `keyVal`): non-increasing when
descending, non-decreasing when ascending; and rows with equal key values keep
their relative input order (stability, stated as filter-invariance: restricting
the output to the rows with any fixed key value yields exactly the input's rows
with that value, in input order). Shown for the developer, workspace and group
ranking tables. -/
theorem claim_C2_sort_ordered_and_stable :
    (∀ (data : List DeveloperRanking) (key : DevTable.SortKey),
      (DevTable.sorted ⟨key, SortDir.desc⟩ data).Sorted
          (fun a b => DevTable.keyVal key b ≤ DevTable.keyVal key a)
      ∧ (DevTable.sorted ⟨key, SortDir.asc⟩ data).Sorted
          (fun a b => DevTable.keyVal key a ≤ DevTable.keyVal key b)
      ∧ ∀ (dir : SortDir) (v : Int),
          (DevTable.sorted ⟨key, dir⟩ data).filter (fun r => decide (DevTable.keyVal key r = v))
            = data.filter (fun r => decide (DevTable.keyVal key r = v)))
    ∧ (∀ (data : List WorkspaceRanking) (key : WsTable.SortKey),
      (WsTable.sorted ⟨key, SortDir.desc⟩ data).Sorted
          (fun a b => WsTable.keyVal key b ≤ WsTable.keyVal key a)
      ∧ (WsTable.sorted ⟨key, SortDir.asc⟩ data).Sorted
          (fun a b => WsTable.keyVal key a ≤ WsTable.keyVal key b)
      ∧ ∀ (dir : SortDir) (v : Int),
          (WsTable.sorted ⟨key, dir⟩ data).filter (fun r => decide (WsTable.keyVal key r = v))
            = data.filter (fun r => decide (WsTable.keyVal key r = v)))
    ∧ (∀ (data : List GroupRanking) (key : GrpTable.SortKey),
      (GrpTable.sorted ⟨key, SortDir.desc⟩ data).Sorted
          (fun a b => GrpTable.keyVal key b ≤ GrpTable.keyVal key a)
      ∧ (GrpTable.sorted ⟨key, SortDir.asc⟩ data).Sorted
          (fun a b => GrpTable.keyVal key a ≤ GrpTable.keyVal key b)
      ∧ ∀ (dir : SortDir) (v : Int),
          (GrpTable.sorted ⟨key, dir⟩ data).filter (fun r => decide (GrpTable.keyVal key r = v))
            = data.filter (fun r => decide (GrpTable.keyVal key r = v))) :=
  ⟨fun data _key => ⟨jsSortBy_sorted_desc _ data, jsSortBy_sorted_asc _ data,
      fun dir v => jsSortBy_stable _ dir data v⟩,
   fun data _key => ⟨jsSortBy_sorted_desc _ data, jsSortBy_sorted_asc _ data,
      fun dir v => jsSortBy_stable _ dir data v⟩,
   fun data _key => ⟨jsSortBy_sorted_desc _ data, jsSortBy_sorted_asc _ data,
      fun dir v => jsSortBy_stable _ dir data v⟩⟩

/-- C3: from any sort state, selecting the currently selected key keeps the key
and flips the direction (descending becomes ascending and vice versa — over the
two-valued direction type, flipping is exactly changing the value), while
selecting a different key selects it with direction reset to descending.
Stated for the developer and workspace tables' key sets (the handler is the
same `handleSort`). -/
theorem claim_C3_handleSort_toggle_and_reset :
    (∀ (key cur : DevTable.SortKey) (dir : SortDir),
      (key = cur → (handleSort key ⟨cur, dir⟩).sortKey = cur
          ∧ (handleSort key ⟨cur, dir⟩).sortDir ≠ dir)
      ∧ (key ≠ cur → handleSort key ⟨cur, dir⟩ = ⟨key, SortDir.desc⟩))
    ∧ (∀ key : DevTable.SortKey,
      (handleSort key ⟨key, SortDir.desc⟩).sortDir = SortDir.asc
      ∧ (handleSort key ⟨key, SortDir.asc⟩).sortDir = SortDir.desc)
    ∧ (∀ (key cur : WsTable.SortKey) (dir : SortDir),
      (key = cur → (handleSort key ⟨cur, dir⟩).sortKey = cur
          ∧ (handleSort key ⟨cur, dir⟩).sortDir ≠ dir)
      ∧ (key ≠ cur → handleSort key ⟨cur, dir⟩ = ⟨key, SortDir.desc⟩))
    ∧ (∀ key : WsTable.SortKey,
      (handleSort key ⟨key, SortDir.desc⟩).sortDir = SortDir.asc
      ∧ (handleSort key ⟨key, SortDir.asc⟩).sortDir = SortDir.desc) := by
  refine ⟨fun key cur dir => ⟨?_, ?_⟩,
      fun key => ⟨by simp [handleSort], by simp [handleSort]⟩,
      fun key cur dir => ⟨?_, ?_⟩,
      fun key => ⟨by simp [handleSort], by simp [handleSort]⟩⟩
  · rintro rfl
    exact ⟨by simp [handleSort], by cases dir <;> simp [handleSort]⟩
  · intro h
    simp [handleSort, Ne.symm h]
  · rintro rfl
    exact ⟨by simp [handleSort], by cases dir <;> simp [handleSort]⟩
  · intro h
    simp [handleSort, Ne.symm h]

/-- Witness for C3 at concrete inputs: selecting `rating` while `total_chats`
is selected resets to descending on `rating`; selecting `rating` again flips
the direction away from descending. -/
theorem claim_C3_witness :
    handleSort DevTable.SortKey.rating ⟨DevTable.SortKey.total_chats, SortDir.desc⟩
      = ⟨DevTable.SortKey.rating, SortDir.desc⟩
    ∧ (handleSort DevTable.SortKey.rating
        (⟨DevTable.SortKey.rating, SortDir.desc⟩ : SortState DevTable.SortKey)).sortDir
      ≠ SortDir.desc :=
  ⟨(claim_C3_handleSort_toggle_and_reset.1 DevTable.SortKey.rating
      DevTable.SortKey.total_chats SortDir.desc).2 (by decide),
   ((claim_C3_handleSort_toggle_and_reset.1 DevTable.SortKey.rating
      DevTable.SortKey.rating SortDir.desc).1 rfl).2⟩

/-- C10: for every input page and sort selection, the sorted view is a
permutation of the input page — no row is added, dropped or modified — for the
developer, workspace and group ranking tables.  (The source sorts a copy,
`[...data].sort`, and the embedding is purely functional, so the caller's input
list itself is untouched by construction.) -/
theorem claim_C10_sort_is_permutation :
    (∀ (s : SortState DevTable.SortKey) (data : List DeveloperRanking),
      (DevTable.sorted s data).Perm data)
    ∧ (∀ (s : SortState WsTable.SortKey) (data : List WorkspaceRanking),
      (WsTable.sorted s data).Perm data)
    ∧ (∀ (s : SortState GrpTable.SortKey) (data : List GroupRanking),
      (GrpTable.sorted s data).Perm data) :=
  ⟨fun s data => jsSortBy_perm (DevTable.keyVal s.sortKey) s.sortDir data,
   fun s data => jsSortBy_perm (WsTable.keyVal s.sortKey) s.sortDir data,
   fun s data => jsSortBy_perm (GrpTable.keyVal s.sortKey) s.sortDir data⟩


/-! ## Pagination controller claims -/

theorem natCeil_natCast_div (a b : ℕ) (hb : 0 < b) :
    ⌈(a : ℚ) / (b : ℚ)⌉₊ = (a + b - 1) / b := by
  have hb' : (0 : ℚ) < (b : ℚ) := by exact_mod_cast hb
  apply le_antisymm
  · rw [Nat.ceil_le, div_le_iff₀ hb']
    have h1 : a ≤ (a + b - 1) / b * b := by
      have h2 := Nat.div_add_mod (a + b - 1) b
      have h3 : (a + b - 1) % b < b := Nat.mod_lt _ hb
      rw [Nat.mul_comm]
      generalize b * ((a + b - 1) / b) = t at h2 ⊢
      generalize (a + b - 1) % b = r at h2 h3
      omega
    exact_mod_cast h1
  · have h4 : (a : ℚ) / b ≤ (⌈(a : ℚ) / (b : ℚ)⌉₊ : ℚ) := Nat.le_ceil _
    rw [div_le_iff₀ hb'] at h4
    have h5 : a ≤ ⌈(a : ℚ) / (b : ℚ)⌉₊ * b := by exact_mod_cast h4
    rw [← Nat.lt_succ_iff, Nat.div_lt_iff_lt_mul hb, Nat.succ_mul]
    generalize ⌈(a : ℚ) / (b : ℚ)⌉₊ * b = t at h5 ⊢
    omega

/-- C4: for positive `limit` the pagination controller computes
`currentPage = floor(offset/limit) + 1` (natural division), `totalPages =
ceil(total/limit)` (which equals `(total + limit - 1) / limit` in natural
division), and the visible row range `[offset+1, min(offset+limit, total)]`;
in particular `total=45, limit=20, offset=20` gives page 2 of 3 with range
`[21, 40]`, and `offset=40` gives page 3 of 3 with range `[41, 45]`. -/
theorem claim_C4_pagination_formulas :
    (∀ total offset limit : ℕ, 0 < limit →
      Pagination.currentPage offset limit = offset / limit + 1
      ∧ Pagination.totalPages total limit = (total + limit - 1) / limit
      ∧ Pagination.rangeFrom offset = offset + 1
      ∧ Pagination.rangeTo total offset limit = min (offset + limit) total)
    ∧ Pagination.view 45 20 20 = ⟨2, 3, 21, 40⟩
    ∧ Pagination.view 45 40 20 = ⟨3, 3, 41, 45⟩ := by
  have hgen : ∀ total offset limit : ℕ, 0 < limit →
      Pagination.currentPage offset limit = offset / limit + 1
      ∧ Pagination.totalPages total limit = (total + limit - 1) / limit
      ∧ Pagination.rangeFrom offset = offset + 1
      ∧ Pagination.rangeTo total offset limit = min (offset + limit) total := by
    intro total offset limit hl
    refine ⟨?_, natCeil_natCast_div total limit hl, rfl, rfl⟩
    unfold Pagination.currentPage
    rw [Nat.floor_div_eq_div]
  refine ⟨hgen, ?_, ?_⟩
  · obtain ⟨h1, h2, h3, h4⟩ := hgen 45 20 20 (by norm_num)
    simp [Pagination.view, h1, h2, h3, h4]
  · obtain ⟨h1, h2, h3, h4⟩ := hgen 45 40 20 (by norm_num)
    simp [Pagination.view, h1, h2, h3, h4]

/-- Witness for C4: the formulas evaluated at `total=45, limit=20, offset=20`. -/
theorem claim_C4_witness :
    Pagination.currentPage 20 20 = 20 / 20 + 1
    ∧ Pagination.totalPages 45 20 = (45 + 20 - 1) / 20 :=
  ⟨(claim_C4_pagination_formulas.1 45 20 20 (by decide)).1,
   (claim_C4_pagination_formulas.1 45 20 20 (by decide)).2.1⟩

/-- C5: the "previous" action emits `max(0, offset − limit)` (integer
subtraction clamped at zero) and is disabled exactly when `offset = 0`; the
"next" action emits `offset + limit` and is disabled exactly when
`offset + limit ≥ total`. -/
theorem claim_C5_navigation_actions (total offset limit : ℕ) :
    ((Pagination.prevTarget offset limit : ℤ) = max 0 ((offset : ℤ) - (limit : ℤ)))
    ∧ (Pagination.prevDisabled offset = true ↔ offset = 0)
    ∧ Pagination.nextTarget offset limit = offset + limit
    ∧ (Pagination.nextDisabled total offset limit = true ↔ offset + limit ≥ total) := by
  refine ⟨?_, ?_, rfl, ?_⟩
  · exact Int.toNat_of_nonneg (le_max_left 0 _)
  · simp [Pagination.prevDisabled]
  · simp [Pagination.nextDisabled, ge_iff_le]

/-- C6: when the whole result set fits in one page (`total ≤ limit`) the
pagination control renders nothing: no visible range and no navigation
actions are emitted. -/
theorem claim_C6_render_none (total offset limit : ℕ) (h : total ≤ limit) :
    Pagination.render total offset limit = none := by
  simp [Pagination.render, h]

/-- Witness for C6: `total=15, limit=20` renders nothing. -/
theorem claim_C6_witness : Pagination.render 15 0 20 = none :=
  claim_C6_render_none 15 0 20 (by decide)

/-- C9: from a state where `offset` is a multiple of `limit` and
`0 ≤ offset ≤ total`, every enabled navigation action yields an offset that is
again a multiple of `limit` and satisfies `0 ≤ offset ≤ total` (the lower bound
holds by the `Nat` embedding). -/
theorem claim_C9_offset_invariant_preserved (total offset limit : ℕ)
    (hdvd : limit ∣ offset) (hle : offset ≤ total) :
    (Pagination.prevDisabled offset = false →
      limit ∣ Pagination.prevTarget offset limit ∧ Pagination.prevTarget offset limit ≤ total)
    ∧ (Pagination.nextDisabled total offset limit = false →
      limit ∣ Pagination.nextTarget offset limit ∧ Pagination.nextTarget offset limit ≤ total) := by
  constructor
  · intro hp
    have ho : offset ≠ 0 := by simpa [Pagination.prevDisabled] using hp
    have hlim : limit ≤ offset := Nat.le_of_dvd (Nat.pos_of_ne_zero ho) hdvd
    have ht : Pagination.prevTarget offset limit = offset - limit := by
      unfold Pagination.prevTarget
      omega
    rw [ht]
    exact ⟨Nat.dvd_sub' hdvd dvd_rfl, by omega⟩
  · intro hn
    have hlt : offset + limit < total := by
      simp only [Pagination.nextDisabled, decide_eq_false_iff_not, not_le] at hn
      exact hn
    refine ⟨?_, ?_⟩
    · show limit ∣ offset + limit
      exact Nat.dvd_add hdvd dvd_rfl
    · show offset + limit ≤ total
      omega

/-- Witness for C9: at `total=45, offset=20, limit=20` the enabled "next"
action lands on offset 40, a multiple of 20 within the total. -/
theorem claim_C9_witness :
    20 ∣ Pagination.nextTarget 20 20 ∧ Pagination.nextTarget 20 20 ≤ 45 :=
  (claim_C9_offset_invariant_preserved 45 20 20 ⟨1, rfl⟩ (by decide)).2 (by decide)

/-! ## Identifier extraction and bootstrap claims -/

theorem takeWhile_append_of_forall {α : Type} (q : α → Bool) (l1 l2 : List α)
    (h : ∀ c ∈ l1, q c = true) :
    (l1 ++ l2).takeWhile q = l1 ++ l2.takeWhile q := by
  induction l1 with
  | nil => simp
  | cons a l ih =>
    have ha := h a (List.mem_cons_self a l)
    simp [List.takeWhile_cons, ha, ih (fun c hc => h c (List.mem_cons_of_mem a hc))]

theorem takeWhile_eq_self_of_forall {α : Type} (q : α → Bool) (l : List α)
    (h : ∀ c ∈ l, q c = true) : l.takeWhile q = l := by
  simpa using takeWhile_append_of_forall q l [] h

theorem splitAtSign_data (s : String) :
    (splitAtSign s).data = s.data.takeWhile (fun c => decide (c ≠ '@')) :=
  rfl

theorem splitAtSign_append (p r : String) (hp : ∀ c ∈ p.data, c ≠ '@') :
    splitAtSign (p ++ "@" ++ r) = p := by
  unfold splitAtSign
  have hdata : (p ++ "@" ++ r).data = p.data ++ ('@' :: r.data) := by
    rw [String.data_append, String.data_append]
    simp
  rw [hdata, takeWhile_append_of_forall _ _ _ (fun c hc => decide_eq_true (hp c hc))]
  simp

theorem splitAtSign_eq_self (s : String) (hs : ∀ c ∈ s.data, c ≠ '@') :
    splitAtSign s = s := by
  unfold splitAtSign
  rw [takeWhile_eq_self_of_forall _ _ (fun c hc => decide_eq_true (hs c hc))]

/-- C7 counterexample: the claim says the identifier-extraction widget
`emailPrefix` maps the empty string to the placeholder `"-"`, but the
`DeveloperRankingTable`-local copy (one of the two cited implementations)
maps `""` to `""`, not `"-"`. -/
theorem claim_C7_counterexample :
    DevTable.emailPrefix "" = "" ∧ DevTable.emailPrefix "" ≠ "-" := by
  constructor <;> decide

/-- C7 amended: both implementations return the substring before the first
`"@"` for non-empty input (`"jisung.jang@samsung.com"` maps to
`"jisung.jang"`); on the empty string the shared `lib/table-utils`
`emailPrefix` returns the placeholder `"-"`, while the
`DeveloperRankingTable`-local copy returns the empty string instead. -/
theorem claim_C7_email_extraction_amended :
    (∀ p r : String, (∀ c ∈ p.data, c ≠ '@') →
      TableUtils.emailPrefix (p ++ "@" ++ r) = p
      ∧ DevTable.emailPrefix (p ++ "@" ++ r) = p)
    ∧ (∀ s : String, s ≠ "" → (∀ c ∈ s.data, c ≠ '@') →
      TableUtils.emailPrefix s = s ∧ DevTable.emailPrefix s = s)
    ∧ TableUtils.emailPrefix "" = "-"
    ∧ DevTable.emailPrefix "" = ""
    ∧ TableUtils.emailPrefix "jisung.jang@samsung.com" = "jisung.jang"
    ∧ DevTable.emailPrefix "jisung.jang@samsung.com" = "jisung.jang" := by
  refine ⟨fun p r hp => ⟨?_, ?_⟩, fun s hs hchars => ⟨?_, ?_⟩, by decide, by decide,
      by decide, by decide⟩
  · have hne : p ++ "@" ++ r ≠ "" := by
      intro hemp
      have hd := congrArg String.data hemp
      rw [String.data_append, String.data_append] at hd
      simp at hd
    unfold TableUtils.emailPrefix
    rw [if_neg hne]
    exact splitAtSign_append p r hp
  · show splitAtSign (p ++ "@" ++ r) = p
    exact splitAtSign_append p r hp
  · unfold TableUtils.emailPrefix
    rw [if_neg hs]
    exact splitAtSign_eq_self s hchars
  · show splitAtSign s = s
    exact splitAtSign_eq_self s hchars

/-- Witness for C7: the amended theorem applied at the spec's example input. -/
theorem claim_C7_witness :
    TableUtils.emailPrefix ("jisung.jang" ++ "@" ++ "samsung.com") = "jisung.jang" :=
  (claim_C7_email_extraction_amended.1 "jisung.jang" "samsung.com" (by decide)).1

theorem promiseAll_error_of_mem {ε α : Type} (results : List (Except ε α))
    (h : ∃ r ∈ results, ∃ e, r = Except.error e) :
    ∃ e, promiseAll results = Except.error e := by
  induction results with
  | nil =>
    obtain ⟨r, hr, _⟩ := h
    exact absurd hr (List.not_mem_nil r)
  | cons x rest ih =>
    cases x with
    | error e => exact ⟨e, rfl⟩
    | ok a =>
      obtain ⟨r, hr, e, he⟩ := h
      rcases List.mem_cons.mp hr with h1 | h2
      · rw [h1] at he
        exact absurd he (by simp)
      · obtain ⟨e2, he2⟩ := ih ⟨r, h2, e, he⟩
        refine ⟨e2, ?_⟩
        simp only [promiseAll]
        rw [he2]

/-- C8: if any one of the parallel initial bootstrap fetches rejects, the
dashboard's final state after all fetches settle is the error state, never the
ready state, regardless of how many of the other fetches succeeded. -/
theorem claim_C8_bootstrap_error_wins (results : List (Except String Unit))
    (h : ∃ r ∈ results, ∃ msg, r = Except.error msg) :
    bootstrapFinalState results ≠ DashState.ready
    ∧ ∃ msg, bootstrapFinalState results = DashState.error msg := by
  obtain ⟨e, he⟩ := promiseAll_error_of_mem results h
  have hb : bootstrapFinalState results = DashState.error e := by
    unfold bootstrapFinalState
    rw [he]
  rw [hb]
  exact ⟨by simp, e, rfl⟩

/-- Witness for C8: one rejected fetch among five settled requests forces the
error state. -/
theorem claim_C8_witness :
    bootstrapFinalState [Except.ok (), Except.error "network error",
        Except.ok (), Except.ok (), Except.ok ()] ≠ DashState.ready :=
  (claim_C8_bootstrap_error_wins _
    ⟨Except.error "network error", by simp, "network error", rfl⟩).1

end OWD
